import Mathlib

/-!
Verification of the render/input core of the `hecto` terminal text viewer
(sources: `src/main.rs`, `src/editor.rs`, `src/viewer.rs`, `src/buffer.rs`,
`src/terminal.rs`, `src/error.rs`, `src/io_provider.rs`).

The Rust code is shallowly embedded: terminal output is modelled as an
explicit command queue (`List Cmd`) threaded through the functions, machine
integers (`usize`, `u16`) become `Nat` with Rust's saturating operations
mapped to `Nat` truncated subtraction, strings become `List Char` (the
texts involved are ASCII, so byte positions and character positions agree),
and fallible operations return an explicit error component.
-/

namespace Hecto

/-- An on-screen position `(col, row)`, from `terminal.rs` (`Position`). -/
structure Position where
  col : Nat
  row : Nat
deriving DecidableEq, Repr

/-- Terminal size `(width, height)`, from `terminal.rs` (`Size`). -/
structure Size where
  width : Nat
  height : Nat
deriving DecidableEq, Repr

/-- A logical place in the document, from `editor.rs` (`Location`). -/
structure Location where
  col : Nat
  row : Nat
deriving DecidableEq, Repr

/-- The error type of `error.rs`: either a propagated I/O error or a
`TryFromIntError` from a failed integer conversion. -/
inductive Error where
  | Io
  | TryFromInt
deriving DecidableEq, Repr

/-- One queued terminal command.  The Rust code enqueues crossterm commands
into a buffered writer (`terminal.rs`); we record the queue explicitly.
`flush` marks the transmission point produced by `terminal::execute()`. -/
inductive Cmd where
  | clearScreen
  | clearLine
  | print (s : List Char)
  | moveTo (col row : Nat)
  | hideCursor
  | showCursor
  | flush
deriving DecidableEq, Repr

/-- Key codes from crossterm used by `editor.rs`; codes the editor never
names all fall into its catch-all match arm, represented here by the
non-navigation constructors. -/
inductive KeyCode where
  | Backspace
  | Enter
  | Left
  | Right
  | Up
  | Down
  | Home
  | End
  | PageUp
  | PageDown
  | Tab
  | BackTab
  | Delete
  | Insert
  | F (n : Nat)
  | Char (c : Char)
  | Null
  | Esc
deriving DecidableEq, Repr

/-- Kind of a key event (crossterm `KeyEventKind`). -/
inductive KeyEventKind where
  | Press
  | Release
  | Repeat
deriving DecidableEq, Repr

/-- A key event; `ctrl` records whether the modifier set contains CONTROL,
which is the only modifier the editor ever queries. -/
structure KeyEvent where
  code : KeyCode
  ctrl : Bool
  kind : KeyEventKind
deriving DecidableEq, Repr

/-- A crossterm `Event`; the editor only inspects `Key` events. -/
inductive Event where
  | Key (ke : KeyEvent)
  | FocusGained
  | FocusLost
  | Mouse
  | Paste (s : List Char)
  | Resize (w h : Nat)
deriving DecidableEq, Repr

namespace terminal

/-- `terminal::print`: enqueue a `Print` command (no flush). -/
def print (s : List Char) (q : List Cmd) : List Cmd :=
  q ++ [Cmd.print s]

/-- `terminal::clear_screen`: enqueue `Clear(ClearType::All)`. -/
def clear_screen (q : List Cmd) : List Cmd :=
  q ++ [Cmd.clearScreen]

/-- `terminal::clear_line`: enqueue `Clear(ClearType::CurrentLine)`. -/
def clear_line (q : List Cmd) : List Cmd :=
  q ++ [Cmd.clearLine]

/-- `terminal::execute`: flush the queued commands. -/
def execute (q : List Cmd) : List Cmd :=
  q ++ [Cmd.flush]

namespace cursor

/-- `cursor::hide`: enqueue `Hide`. -/
def hide (q : List Cmd) : List Cmd :=
  q ++ [Cmd.hideCursor]

/-- `cursor::show`: enqueue `Show`. -/
def showCursor (q : List Cmd) : List Cmd :=
  q ++ [Cmd.showCursor]

/-- Rust `usize -> u16` conversion via `try_into()`: succeeds exactly when
the value fits in 16 bits (at most 65535), otherwise a `TryFromIntError`. -/
def try_into_u16 (n : Nat) : Option Nat :=
  if n ≤ 65535 then some n else none

/-- `cursor::move_to` from `terminal.rs`: convert both components with
`try_into()?` and only then enqueue `MoveTo`.  The `?` operator returns
early on conversion failure, before anything is enqueued, so the queue is
returned unchanged together with the error. -/
def move_to (pos : Position) (q : List Cmd) : List Cmd × Option Error :=
  match try_into_u16 pos.col with
  | none => (q, some Error.TryFromInt)
  | some col_u16 =>
    match try_into_u16 pos.row with
    | none => (q, some Error.TryFromInt)
    | some row_u16 => (q ++ [Cmd.moveTo col_u16 row_u16], none)

end cursor

end terminal

/-- The editor state from `editor.rs` (`Editor`): the quit flag and the
logical location. -/
structure Editor where
  should_quit : Bool
  location : Location
deriving DecidableEq, Repr

/-- `Editor::default()`: flag false, location at the origin. -/
def Editor.default : Editor :=
  { should_quit := false, location := { col := 0, row := 0 } }

/-- `Editor::move_cursor` from `editor.rs`: update the location from a key
code, clamped by the current terminal size.  `saturating_sub` on `usize`
is `Nat` truncated subtraction. -/
def Editor.move_cursor (loc : Location) (s : Size) (key : KeyCode) : Location :=
  let col := loc.col
  let row := loc.row
  match key with
  | .Up => { col := col, row := row - 1 }
  | .Down => { col := col, row := min (s.height - 1) (row + 1) }
  | .Left => { col := col - 1, row := row }
  | .Right => { col := min (s.width - 1) (col + 1), row := row }
  | .PageUp => { col := col, row := 0 }
  | .PageDown => { col := col, row := s.height - 1 }
  | .Home => { col := 0, row := row }
  | .End => { col := s.width - 1, row := row }
  | _ => { col := col, row := row }

/-- `Editor::handle_event` from `editor.rs`: only key-press events are
inspected; Ctrl+Q sets the quit flag, the eight navigation keys move the
cursor, everything else is ignored.  The size argument stands for the
fresh `terminal::size()` query made inside `move_cursor`. -/
def Editor.handle_event (e : Editor) (s : Size) (ev : Event) : Editor :=
  match ev with
  | .Key ke =>
    match ke.kind with
    | .Press =>
      match ke.code with
      | .Char 'q' =>
        if ke.ctrl then { e with should_quit := true } else e
      | .Up | .Down | .Left | .Right
      | .Home | .End | .PageUp | .PageDown =>
        { e with location := Editor.move_cursor e.location s ke.code }
      | _ => e
    | _ => e
  | _ => e

/-- The eight navigation keys of the spec's transition table. -/
def navKeys : List KeyCode :=
  [.Up, .Down, .Left, .Right, .PageUp, .PageDown, .Home, .End]

/-- C1: one `move_cursor` step maps the location exactly as the spec table
states, with saturating (never wrapping) arithmetic clamped to the
viewport bounds supplied at the moment of the transition; any key outside
the eight navigation keys leaves both components unchanged. -/
theorem C1_move_cursor_table (l : Location) (s : Size) :
    (((Editor.move_cursor l s .Up).row : Int) = max ((l.row : Int) - 1) 0 ∧
      (Editor.move_cursor l s .Up).col = l.col) ∧
    (((Editor.move_cursor l s .Down).row : Int) =
        min ((l.row : Int) + 1) (max ((s.height : Int) - 1) 0) ∧
      (Editor.move_cursor l s .Down).col = l.col) ∧
    (((Editor.move_cursor l s .Left).col : Int) = max ((l.col : Int) - 1) 0 ∧
      (Editor.move_cursor l s .Left).row = l.row) ∧
    (((Editor.move_cursor l s .Right).col : Int) =
        min ((l.col : Int) + 1) (max ((s.width : Int) - 1) 0) ∧
      (Editor.move_cursor l s .Right).row = l.row) ∧
    ((Editor.move_cursor l s .PageUp).row = 0 ∧
      (Editor.move_cursor l s .PageUp).col = l.col) ∧
    (((Editor.move_cursor l s .PageDown).row : Int) = max ((s.height : Int) - 1) 0 ∧
      (Editor.move_cursor l s .PageDown).col = l.col) ∧
    ((Editor.move_cursor l s .Home).col = 0 ∧
      (Editor.move_cursor l s .Home).row = l.row) ∧
    (((Editor.move_cursor l s .End).col : Int) = max ((s.width : Int) - 1) 0 ∧
      (Editor.move_cursor l s .End).row = l.row) ∧
    (∀ k : KeyCode, k ∉ navKeys → Editor.move_cursor l s k = l) := by
  refine ⟨⟨?_, ?_⟩, ⟨?_, ?_⟩, ⟨?_, ?_⟩, ⟨?_, ?_⟩, ⟨?_, ?_⟩, ⟨?_, ?_⟩,
    ⟨?_, ?_⟩, ⟨?_, ?_⟩, ?_⟩ <;>
    first
      | (intro k hk
         cases k <;> simp_all [navKeys, Editor.move_cursor])
      | (simp [Editor.move_cursor]; omega)
      | simp [Editor.move_cursor]

/-- Witness for C1 at a concrete location, size and non-navigation key. -/
theorem C1_move_cursor_table_witness :
    KeyCode.Esc ∉ navKeys ∧
      Editor.move_cursor ⟨2, 3⟩ ⟨10, 8⟩ .Esc = ⟨2, 3⟩ :=
  ⟨by decide, (C1_move_cursor_table ⟨2, 3⟩ ⟨10, 8⟩).2.2.2.2.2.2.2.2 .Esc (by decide)⟩

/-- Modelled from the spec: the crate name from the `Cargo.toml` manifest
(`env!("CARGO_PKG_NAME")`), which is not among the source files; the spec
writes the banner as `"<name> editor -- version <version>"` and the
repository is `hecto`. -/
def NAME : List Char := "hecto".data

/-- Modelled from the spec: the crate version from the `Cargo.toml`
manifest (`env!("CARGO_PKG_VERSION")`), which is not among the source
files. -/
def VERSION : List Char := "0.1.0".data

/-- The fully formatted banner text `"<name> editor -- version <version>"`
built by `format!` in `viewer.rs`/`editor.rs`. -/
def welcomeText : List Char := NAME ++ (" editor -- version ").data ++ VERSION

/-- The `"\r\n"` line break printed between rows. -/
def crlf : List Char := ("\r\n").data

/-- The line buffer from `buffer.rs` (`Buffer`). -/
structure Buffer where
  lines : List (List Char)
deriving DecidableEq, Repr

/-- `Buffer::is_empty`. -/
def Buffer.is_empty (b : Buffer) : Bool := b.lines.isEmpty

/-- `Buffer::get`: the line at `index`, if any. -/
def Buffer.get (b : Buffer) (index : Nat) : Option (List Char) :=
  b.lines.get? index

/-- The view from `viewer.rs` (`View`), owning a `Buffer`. -/
structure View where
  buffer : Buffer
deriving DecidableEq, Repr

/-- `render_empty_row` from `viewer.rs`: print a single tilde. -/
def render_empty_row (q : List Cmd) : List Cmd :=
  terminal.print ['~'] q

/-- `render_welcome_row` from `viewer.rs`: build the centered banner row
(`saturating_sub` is `Nat` subtraction, `String::truncate` is `take`;
all the texts are ASCII so byte and character counts agree) and print it. -/
def render_welcome_row (width : Nat) (q : List Cmd) : List Cmd :=
  let welcome_message := NAME ++ (" editor -- version ").data ++ VERSION
  let len := welcome_message.length
  let padding := (width - len) / 2
  let leading_spaces := List.replicate (padding - 1) ' '
  let msg := '~' :: (leading_spaces ++ welcome_message)
  terminal.print (msg.take width) q

/-- `View::render_welcome` from `viewer.rs`: the `for row in 0..height`
loop threading the command queue. -/
def View.render_welcome (s : Size) (q : List Cmd) : List Cmd :=
  (List.range s.height).foldl (fun q row =>
    let q := terminal.clear_line q
    let q :=
      if row = s.height / 3 then render_welcome_row s.width q
      else render_empty_row q
    if row + 1 < s.height then terminal.print crlf q else q) q

/-- `View::render_buffer` from `viewer.rs`: print each document line
verbatim, or a tilde past the end of the document. -/
def View.render_buffer (v : View) (s : Size) (q : List Cmd) : List Cmd :=
  (List.range s.height).foldl (fun q row =>
    let q := terminal.clear_line q
    let q :=
      match v.buffer.get row with
      | some line => terminal.print line q
      | none => render_empty_row q
    if row + 1 < s.height then terminal.print crlf q else q) q

/-- `View::render` from `viewer.rs`. -/
def View.render (v : View) (s : Size) (q : List Cmd) : List Cmd :=
  if v.buffer.is_empty then View.render_welcome s q
  else View.render_buffer v s q

/-- `Editor::draw_empty_row` from `editor.rs` (textual duplicate of
`render_empty_row`). -/
def Editor.draw_empty_row (q : List Cmd) : List Cmd :=
  terminal.print ['~'] q

/-- `Editor::draw_welcome_message_row` from `editor.rs` (textual duplicate
of `render_welcome_row`). -/
def Editor.draw_welcome_message_row (width : Nat) (q : List Cmd) : List Cmd :=
  let welcome_message := NAME ++ (" editor -- version ").data ++ VERSION
  let len := welcome_message.length
  let padding := (width - len) / 2
  let leading_spaces := List.replicate (padding - 1) ' '
  let msg := '~' :: (leading_spaces ++ welcome_message)
  terminal.print (msg.take width) q

/-- `Editor::draw_rows` from `editor.rs` (textual duplicate of
`View::render_welcome`). -/
def Editor.draw_rows (s : Size) (q : List Cmd) : List Cmd :=
  (List.range s.height).foldl (fun q row =>
    let q := terminal.clear_line q
    let q :=
      if row = s.height / 3 then Editor.draw_welcome_message_row s.width q
      else Editor.draw_empty_row q
    if row + 1 < s.height then terminal.print crlf q else q) q

/-- The banner row text produced by `render_welcome_row`, as a closed
formula. -/
def welcomePayload (width : Nat) : List Char :=
  ('~' :: (List.replicate ((width - welcomeText.length) / 2 - 1) ' ' ++ welcomeText)).take width

/-- The substring the spec requires the banner row to contain. -/
def bannerKey : List Char := ("editor -- version").data

/-- Commands emitted for one row of a frame: clear the line, print the
row's content, and print a line break unless this is the last row. -/
def rowStep (hgt : Nat) (c : Nat → List Char) (r : Nat) : List Cmd :=
  [Cmd.clearLine, Cmd.print (c r)] ++ (if r + 1 < hgt then [Cmd.print crlf] else [])

/-- Recover the screen rows from a command stream: printed text accumulates
into the current row, a printed `"\r\n"` closes it, other commands write
no text. -/
def screenRows : List Cmd → List Char → List (List Char)
  | [], cur => [cur]
  | Cmd.print s :: rest, cur =>
    if s = crlf then cur :: screenRows rest [] else screenRows rest (cur ++ s)
  | _ :: rest, cur => screenRows rest cur

theorem foldl_append_flatMap (f : Nat → List Cmd) :
    ∀ (l : List Nat) (q : List Cmd),
      l.foldl (fun q i => q ++ f i) q = q ++ l.flatMap f := by
  intro l
  induction l with
  | nil => simp
  | cons a t ih => intro q; simp [ih]

theorem render_welcome_row_emit (width : Nat) (q : List Cmd) :
    render_welcome_row width q = q ++ [Cmd.print (welcomePayload width)] := rfl

theorem render_welcome_eq_flatMap (s : Size) (q : List Cmd) :
    View.render_welcome s q =
      q ++ (List.range s.height).flatMap
        (rowStep s.height (fun r => if r = s.height / 3 then welcomePayload s.width else ['~'])) := by
  unfold View.render_welcome
  rw [show (fun (q : List Cmd) (row : Nat) =>
        let q := terminal.clear_line q
        let q :=
          if row = s.height / 3 then render_welcome_row s.width q
          else render_empty_row q
        if row + 1 < s.height then terminal.print crlf q else q) =
      (fun q i => q ++ rowStep s.height
        (fun r => if r = s.height / 3 then welcomePayload s.width else ['~']) i) from ?_]
  · exact foldl_append_flatMap _ _ q
  · funext q row
    simp only [terminal.clear_line, terminal.print, render_welcome_row_emit,
      render_empty_row, rowStep]
    by_cases h1 : row = s.height / 3
    · subst h1
      by_cases h2 : s.height / 3 + 1 < s.height <;> simp [h2]
    · by_cases h2 : row + 1 < s.height <;> simp [h1, h2]

theorem draw_rows_eq_render_welcome (s : Size) (q : List Cmd) :
    Editor.draw_rows s q = View.render_welcome s q := rfl

theorem render_buffer_eq_flatMap (v : View) (s : Size) (q : List Cmd) :
    View.render_buffer v s q =
      q ++ (List.range s.height).flatMap
        (rowStep s.height (fun r => v.buffer.lines.getD r ['~'])) := by
  unfold View.render_buffer
  rw [show (fun (q : List Cmd) (row : Nat) =>
        let q := terminal.clear_line q
        let q :=
          match v.buffer.get row with
          | some line => terminal.print line q
          | none => render_empty_row q
        if row + 1 < s.height then terminal.print crlf q else q) =
      (fun q i => q ++ rowStep s.height (fun r => v.buffer.lines.getD r ['~']) i) from ?_]
  · exact foldl_append_flatMap _ _ q
  · funext q row
    simp only [terminal.clear_line, terminal.print, render_empty_row, rowStep,
      Buffer.get, List.getD]
    rcases hg : v.buffer.lines.get? row with _ | line <;>
      by_cases h2 : row + 1 < s.height <;> simp [hg, h2]

theorem count_clearLine_flatMap (hgt : Nat) (c : Nat → List Char) :
    ∀ l : List Nat,
      ((l.flatMap (rowStep hgt c)).count Cmd.clearLine) = l.length := by
  intro l
  induction l with
  | nil => rfl
  | cons a t ih =>
    simp only [List.flatMap_cons, List.count_append, ih, rowStep]
    split <;> simp [List.count_cons, List.count_append, Nat.add_comm]

theorem screenRows_clearLine (rest : List Cmd) (cur : List Char) :
    screenRows (Cmd.clearLine :: rest) cur = screenRows rest cur := rfl

theorem screenRows_print_ne (s : List Char) (rest : List Cmd) (cur : List Char)
    (h : s ≠ crlf) :
    screenRows (Cmd.print s :: rest) cur = screenRows rest (cur ++ s) := by
  simp only [screenRows, if_neg h]

theorem screenRows_print_crlf (rest : List Cmd) (cur : List Char) :
    screenRows (Cmd.print crlf :: rest) cur = cur :: screenRows rest [] := by
  simp [screenRows]

theorem rowStream_spec (hgt : Nat) (c : Nat → List Char) (hc : ∀ r, c r ≠ crlf) :
    ∀ (n i : Nat) (cur : List Char), i + n = hgt → 1 ≤ n →
      screenRows ((List.range' i n).flatMap (rowStep hgt c)) cur =
          (cur ++ c i) :: (List.range' (i + 1) (n - 1)).map c ∧
        ((List.range' i n).flatMap (rowStep hgt c)).count (Cmd.print crlf) =
          n - 1 := by
  intro n
  induction n with
  | zero => intro i cur _ h1; exact absurd h1 (by omega)
  | succ m ih =>
    intro i cur hsum _
    have hprint : Cmd.print (c i) ≠ Cmd.print crlf := by
      simpa using hc i
    rcases Nat.eq_zero_or_pos m with hm | hm
    · subst hm
      have hlt : ¬ i + 1 < hgt := by omega
      constructor
      · simp [List.range', rowStep, hlt, screenRows, hc i]
      · simp [List.range', rowStep, hlt, List.count_cons, hprint]
    · obtain ⟨k, rfl⟩ : ∃ k, m = k + 1 := ⟨m - 1, by omega⟩
      have hlt : i + 1 < hgt := by omega
      obtain ⟨ihrows, ihcount⟩ := ih (i + 1) [] (by omega) (by omega)
      have hstream : rowStep hgt c i =
          [Cmd.clearLine, Cmd.print (c i), Cmd.print crlf] := by
        simp [rowStep, if_pos hlt]
      constructor
      · rw [List.range'_succ, List.flatMap_cons, hstream]
        simp only [List.cons_append, List.nil_append]
        rw [screenRows_clearLine, screenRows_print_ne _ _ _ (hc i),
          screenRows_print_crlf, ihrows]
        simp [List.range'_succ]
      · rw [List.range'_succ, List.flatMap_cons, List.count_append, ihcount,
          hstream]
        simp [List.count_cons, hprint]
        omega

/-- C7: for every viewport width, the banner row is the tilde, then
`max(padding-1,0)` spaces, then the banner text, truncated to at most
`width` characters; when the width does not exceed the banner length only
the truncated, tilde-prefixed prefix is produced. -/
theorem C7_welcome_row_construction (width : Nat) :
    (∀ q : List Cmd, render_welcome_row width q =
      q ++ [Cmd.print
        (('~' :: (List.replicate ((width - welcomeText.length) / 2 - 1) ' ' ++
          welcomeText)).take width)]) ∧
    (welcomePayload width).length ≤ width ∧
    (width ≤ welcomeText.length →
      welcomePayload width = ('~' :: welcomeText).take width) := by
  refine ⟨fun q => render_welcome_row_emit width q, ?_, fun h => ?_⟩
  · simp [welcomePayload, List.length_take]
  · have h0 : width - welcomeText.length = 0 := Nat.sub_eq_zero_of_le h
    simp [welcomePayload, h0]

theorem rows_of_frame (hgt : Nat) (c : Nat → List Char) (hc : ∀ r, c r ≠ crlf)
    (h1 : 1 ≤ hgt) :
    screenRows ((List.range hgt).flatMap (rowStep hgt c)) [] =
        (List.range hgt).map c ∧
      ((List.range hgt).flatMap (rowStep hgt c)).count (Cmd.print crlf) =
        hgt - 1 := by
  obtain ⟨j, rfl⟩ : ∃ j, hgt = j + 1 := ⟨hgt - 1, by omega⟩
  have hr := rowStream_spec (j + 1) c hc (j + 1) 0 [] (by omega) (by omega)
  rw [List.range_eq_range']
  refine ⟨?_, ?_⟩
  · rw [hr.1]
    simp [List.range'_succ]
  · simpa using hr.2

theorem countP_range_eq_one (n m : Nat) (hm : m < n) :
    (List.range n).countP (fun r => decide (r = m)) = 1 := by
  induction n with
  | zero => omega
  | succ k ih =>
    rw [List.range_succ, List.countP_append]
    rcases Nat.lt_or_ge m k with h | h
    · have hk : k ≠ m := by omega
      simp [ih h, List.countP_cons, hk]
    · have hmk : m = k := by omega
      subst hmk
      have h0 : (List.range m).countP (fun r => decide (r = m)) = 0 := by
        rw [List.countP_eq_zero]
        intro a ha
        have : a < m := List.mem_range.mp ha
        simp
        omega
      simp [h0, List.countP_cons]

/-- C4: rendering a non-empty document prints, for each row index below the
height, a clear-line command then the document's line at that index (or a
tilde past the document's end), with a line break after every row but the
last; lines `["a","b"]` at height 5 give rows `["a","b","~","~","~"]`. -/
theorem C4_render_buffer_rows (v : View) (w hgt : Nat) :
    View.render_buffer v ⟨w, hgt⟩ [] =
        (List.range hgt).flatMap
          (rowStep hgt (fun r => v.buffer.lines.getD r ['~'])) ∧
      (View.render_buffer v ⟨w, hgt⟩ []).count Cmd.clearLine = hgt ∧
      ((∀ l ∈ v.buffer.lines, l ≠ crlf) → 1 ≤ hgt →
        (View.render_buffer v ⟨w, hgt⟩ []).count (Cmd.print crlf) = hgt - 1 ∧
          screenRows (View.render_buffer v ⟨w, hgt⟩ []) [] =
            (List.range hgt).map (fun r => v.buffer.lines.getD r ['~'])) ∧
      screenRows
          (View.render_buffer ⟨⟨[("a").data, ("b").data]⟩⟩ ⟨80, 5⟩ []) [] =
        [("a").data, ("b").data, ['~'], ['~'], ['~']] := by
  have hbind := render_buffer_eq_flatMap v ⟨w, hgt⟩ []
  simp only [List.nil_append] at hbind
  refine ⟨hbind, ?_, fun hl h1 => ?_, by decide⟩
  · rw [hbind, count_clearLine_flatMap, List.length_range]
  · have hc : ∀ r, v.buffer.lines.getD r ['~'] ≠ crlf := by
      intro r
      simp only [List.getD]
      rcases hg : v.buffer.lines.get? r with _ | line
      · decide
      · exact hl line (List.get?_mem hg)
    have hr := rows_of_frame hgt (fun r => v.buffer.lines.getD r ['~']) hc h1
    rw [hbind]
    exact ⟨hr.2, hr.1⟩

/-- Witness for C4 with a concrete document, height and width. -/
theorem C4_render_buffer_rows_witness :
    (∀ l ∈ [("a").data, ("b").data], l ≠ crlf) ∧ 1 ≤ (5 : Nat) ∧
      screenRows (View.render_buffer ⟨⟨[("a").data, ("b").data]⟩⟩ ⟨80, 5⟩ []) [] =
        (List.range 5).map
          (fun r => [("a").data, ("b").data].getD r ['~']) :=
  ⟨by decide, by decide,
    ((C4_render_buffer_rows ⟨⟨[("a").data, ("b").data]⟩⟩ 80 5).2.2.1
      (by decide) (by decide)).2⟩

theorem welcomePayload_eq_of_wide (w : Nat) (hw : welcomeText.length + 2 ≤ w) :
    welcomePayload w =
      '~' :: (List.replicate ((w - welcomeText.length) / 2 - 1) ' ' ++
        welcomeText) := by
  unfold welcomePayload
  apply List.take_of_length_le
  simp only [List.length_cons, List.length_append, List.length_replicate]
  omega

theorem bannerKey_infix_payload (w : Nat) (hw : welcomeText.length + 2 ≤ w) :
    bannerKey <:+: welcomePayload w := by
  rw [welcomePayload_eq_of_wide w hw]
  have h1 : bannerKey <:+: welcomeText := by decide
  exact h1.trans
    ⟨'~' :: List.replicate ((w - welcomeText.length) / 2 - 1) ' ', [], by simp⟩

theorem welcomePayload_ne_crlf (w : Nat) (hw : welcomeText.length + 2 ≤ w) :
    welcomePayload w ≠ crlf := by
  rw [welcomePayload_eq_of_wide w hw]
  intro h
  simp [crlf] at h

/-- C3 (amended): over a viewport of height `H ≥ 1` and width at least the
banner length plus two, the welcome frame (both the `viewer.rs` and the
`editor.rs` copies) emits `H` rows, each preceded by a clear-line command,
separated by `H-1` line breaks with none trailing; the row at index `H/3`
is the banner row and is the only row containing the substring
`"editor -- version"`, and every other row is the tilde. -/
theorem C3_welcome_frame (hgt w : Nat) (h1 : 1 ≤ hgt)
    (hw : welcomeText.length + 2 ≤ w) :
    Editor.draw_rows ⟨w, hgt⟩ [] = View.render_welcome ⟨w, hgt⟩ [] ∧
      View.render_welcome ⟨w, hgt⟩ [] =
        (List.range hgt).flatMap
          (rowStep hgt (fun r => if r = hgt / 3 then welcomePayload w else ['~'])) ∧
      screenRows (View.render_welcome ⟨w, hgt⟩ []) [] =
        (List.range hgt).map
          (fun r => if r = hgt / 3 then welcomePayload w else ['~']) ∧
      (screenRows (View.render_welcome ⟨w, hgt⟩ []) []).length = hgt ∧
      (View.render_welcome ⟨w, hgt⟩ []).count Cmd.clearLine = hgt ∧
      (View.render_welcome ⟨w, hgt⟩ []).count (Cmd.print crlf) = hgt - 1 ∧
      (screenRows (View.render_welcome ⟨w, hgt⟩ []) []).countP
          (fun row => decide (bannerKey <:+: row)) = 1 ∧
      bannerKey <:+:
        (screenRows (View.render_welcome ⟨w, hgt⟩ []) []).getD (hgt / 3) [] ∧
      (∀ r, r < hgt → r ≠ hgt / 3 →
        (screenRows (View.render_welcome ⟨w, hgt⟩ []) []).getD r [] = ['~']) := by
  have hbind := render_welcome_eq_flatMap ⟨w, hgt⟩ []
  simp only [List.nil_append] at hbind
  have hc : ∀ r, (if r = hgt / 3 then welcomePayload w else ['~']) ≠ crlf := by
    intro r
    split
    · exact welcomePayload_ne_crlf w hw
    · decide
  have hrf := rows_of_frame hgt
    (fun r => if r = hgt / 3 then welcomePayload w else ['~']) hc h1
  have hlt3 : hgt / 3 < hgt := Nat.div_lt_self (by omega) (by omega)
  refine ⟨rfl, hbind, ?_, ?_, ?_, ?_, ?_, ?_, ?_⟩
  · rw [hbind]; exact hrf.1
  · rw [hbind, hrf.1]; simp
  · rw [hbind, count_clearLine_flatMap, List.length_range]
  · rw [hbind]; exact hrf.2
  · rw [hbind, hrf.1, List.countP_map]
    have hfun : ((fun row => decide (bannerKey <:+: row)) ∘
        (fun r => if r = hgt / 3 then welcomePayload w else ['~'])) =
          fun r => decide (r = hgt / 3) := by
      funext r
      by_cases hr3 : r = hgt / 3
      · simp [hr3, bannerKey_infix_payload w hw]
      · simp only [Function.comp, hr3, if_neg hr3, decide_eq_false_iff_not]
        simp [hr3]
        decide
    rw [hfun, countP_range_eq_one _ _ hlt3]
  · rw [hbind, hrf.1]
    simp [List.getD, List.getElem?_map, List.getElem?_range hlt3]
    exact bannerKey_infix_payload w hw
  · intro r hr hr3
    rw [hbind, hrf.1]
    simp [List.getD, List.getElem?_map, List.getElem?_range hr, hr3]

/-- Witness for C3 (amended) at height 5 and width 40. -/
theorem C3_welcome_frame_witness :
    (1 : Nat) ≤ 5 ∧ welcomeText.length + 2 ≤ 40 ∧
      (screenRows (View.render_welcome ⟨40, 5⟩ []) []).countP
        (fun row => decide (bannerKey <:+: row)) = 1 :=
  ⟨by decide, by decide,
    (C3_welcome_frame 5 40 (by decide) (by decide)).2.2.2.2.2.2.1⟩

/-- C3 counterexample: at viewport height 3 and width 1 every rendered row
of the welcome frame is truncated to the bare tilde, so no row contains
the banner substring, refuting the claim for that viewport. -/
theorem C3_welcome_frame_counterexample :
    (screenRows (View.render_welcome ⟨1, 3⟩ []) []).countP
        (fun row => decide (bannerKey <:+: row)) = 0 ∧
      screenRows (View.render_welcome ⟨1, 3⟩ []) [] = [['~'], ['~'], ['~']] := by
  decide

/-- Witness for C7 at a width smaller than the banner length. -/
theorem C7_welcome_row_construction_witness :
    10 ≤ welcomeText.length ∧
      welcomePayload 10 = ('~' :: welcomeText).take 10 :=
  ⟨by decide, (C7_welcome_row_construction 10).2.2 (by decide)⟩

/-- The `From<Location> for Position` conversion in `editor.rs`. -/
def Location.toPosition (l : Location) : Position :=
  { col := l.col, row := l.row }

/-- The termination message printed by `Editor::refresh`. -/
def goodbye : List Char := ("Goodbye.\r\n").data

/-- `Editor::refresh` from `editor.rs`: hide the cursor, move to the
origin, then either clear the screen and print the termination message
(when quitting) or draw the rows and restore the cursor to the current
location; finally show the cursor and flush.  A failing `?` returns the
error with the queue as accumulated so far. -/
def Editor.refresh (e : Editor) (s : Size) (q : List Cmd) :
    List Cmd × Option Error :=
  let q := terminal.cursor.hide q
  match terminal.cursor.move_to { col := 0, row := 0 } q with
  | (q, some er) => (q, some er)
  | (q, none) =>
    let body : List Cmd × Option Error :=
      if e.should_quit then
        (terminal.print goodbye (terminal.clear_screen q), none)
      else
        match terminal.cursor.move_to e.location.toPosition
            (Editor.draw_rows s q) with
        | (q, some er) => (q, some er)
        | (q, none) => (q, none)
    match body with
    | (q, some er) => (q, some er)
    | (q, none) => (terminal.execute (terminal.cursor.showCursor q), none)

/-- How a run of the REPL loop ends.  The real loop blocks in `read()`
when input is exhausted; the model is driven by a finite event list and
reports `noMoreInput` at the point where the real loop would block. -/
inductive ReplStop where
  | quit
  | noMoreInput
  | err (e : Error)
deriving DecidableEq, Repr

/-- `Editor::repl` from `editor.rs`, as a trace function: each cycle
refreshes (emitting a frame of commands), exits if `should_quit` is set,
and otherwise consumes the next input event.  The returned command list is
the concatenation of all emitted frames. -/
def Editor.repl : Editor → Size → List Event → List Cmd × ReplStop
  | e, s, events =>
    match Editor.refresh e s [] with
    | (q, some er) => (q, ReplStop.err er)
    | (q, none) =>
      if e.should_quit then (q, ReplStop.quit)
      else
        match events with
        | [] => (q, ReplStop.noMoreInput)
        | ev :: rest =>
          let e2 := Editor.handle_event e s ev
          let (q2, st) := Editor.repl e2 s rest
          (q ++ q2, st)

/-- `fn main()` from `main.rs`: `Editor::default().run()`.  The process
argument list is never read (no `std::env::args` call exists in any
source file), so the initial editor state is the default one whatever the
arguments are. -/
def main (_args : List String) : Editor :=
  Editor.default

/-- Strip one trailing carriage return, as Rust's `lines()` does to a
segment that was terminated by a newline. -/
def stripCR (l : List Char) : List Char :=
  match l.getLast? with
  | some c => if c = '\r' then l.dropLast else l
  | none => l

/-- The traversal underlying Rust `str::lines`: accumulate the current
line (reversed); a `'\n'` closes the segment, stripping one `'\r'`
directly before it; a final unterminated segment is yielded verbatim. -/
def linesGo : List Char → List Char → List (List Char)
  | [], acc => [acc.reverse]
  | c :: rest, acc =>
    if c = '\n' then
      stripCR acc.reverse :: (if rest.isEmpty then [] else linesGo rest [])
    else
      linesGo rest (c :: acc)

/-- Rust `str::lines()` over a character list: split at `'\n'`, dropping a
`'\r'` only when it immediately precedes the `'\n'`; no trailing empty
line for a terminated last line; the empty string has no lines. -/
def rustLines (s : List Char) : List (List Char) :=
  if s.isEmpty then [] else linesGo s []

/-- `Buffer::load` from `buffer.rs`: read the whole file and split it with
`str::lines`.  The filesystem is modelled as a map from names to optional
contents; `none` stands for an `fs::read_to_string` I/O error. -/
def Buffer.load (fs : String → Option (List Char)) (filename : String) :
    Except Error Buffer :=
  match fs filename with
  | some file_contents => Except.ok { lines := rustLines file_contents }
  | none => Except.error Error.Io

/-- `View::load` from `viewer.rs`: `if let Ok(buffer) = Buffer::load(..)`
replaces the buffer, and on error nothing happens. -/
def View.load (fs : String → Option (List Char)) (v : View)
    (file_name : String) : View :=
  match Buffer.load fs file_name with
  | Except.ok buffer => { v with buffer := buffer }
  | Except.error _ => v

/-- C5: `cursor::move_to` fails with the integer-conversion condition —
distinct from the I/O condition — exactly when a component exceeds 65535,
and then enqueues nothing; for in-range positions it enqueues the move
command and succeeds; a column of 70000 fails this way. -/
theorem C5_move_to_range (pos : Position) (q : List Cmd) :
    ((terminal.cursor.move_to pos q).2 = some Error.TryFromInt ↔
      65535 < pos.col ∨ 65535 < pos.row) ∧
    ((terminal.cursor.move_to pos q).2 ≠ none →
      (terminal.cursor.move_to pos q).1 = q) ∧
    (pos.col ≤ 65535 → pos.row ≤ 65535 →
      terminal.cursor.move_to pos q = (q ++ [Cmd.moveTo pos.col pos.row], none)) ∧
    (Error.TryFromInt ≠ Error.Io) ∧
    (terminal.cursor.move_to { col := 70000, row := 5 } q).2 =
      some Error.TryFromInt ∧
    (terminal.cursor.move_to { col := 70000, row := 5 } q).1 = q := by
  unfold terminal.cursor.move_to terminal.cursor.try_into_u16
  refine ⟨?_, ?_, fun h1 h2 => ?_, by decide, by norm_num, by norm_num⟩
  · by_cases h1 : pos.col ≤ 65535 <;> by_cases h2 : pos.row ≤ 65535 <;>
      simp [h1, h2] <;> omega
  · by_cases h1 : pos.col ≤ 65535 <;> by_cases h2 : pos.row ≤ 65535 <;>
      simp [h1, h2]
  · simp [h1, h2]

/-- Witness for C5 at an in-range position. -/
theorem C5_move_to_range_witness :
    (10 : Nat) ≤ 65535 ∧ (5 : Nat) ≤ 65535 ∧
      terminal.cursor.move_to { col := 10, row := 5 } [] =
        ([Cmd.moveTo 10 5], none) :=
  ⟨by decide, by decide,
    (C5_move_to_range { col := 10, row := 5 } []).2.2.1 (by decide) (by decide)⟩

/-- The full frame emitted by the quitting cycle of `Editor::refresh`. -/
def goodbyeFrame : List Cmd :=
  [Cmd.hideCursor, Cmd.moveTo 0 0, Cmd.clearScreen, Cmd.print goodbye,
    Cmd.showCursor, Cmd.flush]

/-- The quit key combination: Ctrl+Q, key-press kind. -/
def quitEvent : Event :=
  .Key { code := .Char 'q', ctrl := true, kind := .Press }

/-- C6: after the quit combination is handled the flag is set, and the very
next cycle emits exactly the goodbye frame — clearing the screen once and
printing the termination message once — and the loop exits with the quit
outcome, independently of any further pending input events (none are
consumed, no later cycle occurs). -/
theorem C6_quit_next_cycle (e : Editor) (s : Size) (events : List Event) :
    (Editor.handle_event e s quitEvent).should_quit = true ∧
      Editor.repl (Editor.handle_event e s quitEvent) s events =
        (goodbyeFrame, ReplStop.quit) ∧
      goodbyeFrame.count Cmd.clearScreen = 1 ∧
      goodbyeFrame.count (Cmd.print goodbye) = 1 := by
  have h1 : Editor.handle_event e s quitEvent = { e with should_quit := true } :=
    rfl
  have hrefresh :
      Editor.refresh { e with should_quit := true } s [] =
        (goodbyeFrame, none) := by
    simp [Editor.refresh, terminal.cursor.hide, terminal.cursor.move_to,
      terminal.cursor.try_into_u16, terminal.clear_screen, terminal.print,
      terminal.cursor.showCursor, terminal.execute, goodbyeFrame]
  refine ⟨by rw [h1], ?_, by decide, by decide⟩
  rw [h1]
  unfold Editor.repl
  rw [hrefresh]
  simp

/-- C2 counterexample: with a file path supplied as the single positional
argument, the session state and the frame drawn by the first cycle are
identical to those of a session started with no argument at all — the
welcome frame — and no content of the named file is ever printed (the
argument list is never read, so the frame cannot depend on any file). -/
theorem C2_counterexample_path_ignored :
    main ["f.txt"] = main [] ∧
      (Editor.refresh (main ["f.txt"]) ⟨40, 5⟩ []).1 =
        (Editor.refresh (main []) ⟨40, 5⟩ []).1 ∧
      Cmd.print (("hello").data) ∉
        (Editor.refresh (main ["f.txt"]) ⟨40, 5⟩ []).1 ∧
      (Editor.refresh (main ["f.txt"]) ⟨40, 5⟩ []).1 =
        [Cmd.hideCursor, Cmd.moveTo 0 0] ++ Editor.draw_rows ⟨40, 5⟩ [] ++
          [Cmd.moveTo 0 0, Cmd.showCursor, Cmd.flush] :=
  ⟨rfl, rfl, by decide, by decide⟩

/-- C2 (amended): the program never reads its argument list; the session
always starts in the default state with no document, and every first-cycle
frame is the welcome frame, whether or not a path was supplied. -/
theorem C2_amended_args_ignored (args : List String) (s : Size) :
    main args = Editor.default ∧
      (main args).should_quit = false ∧
      Editor.refresh (main args) s [] = Editor.refresh (main []) s [] ∧
      (Editor.refresh (main args) s []).1 =
        [Cmd.hideCursor, Cmd.moveTo 0 0] ++ Editor.draw_rows s [] ++
          [Cmd.moveTo 0 0, Cmd.showCursor, Cmd.flush] := by
  have hdr : Editor.draw_rows s [Cmd.hideCursor, Cmd.moveTo 0 0] =
      [Cmd.hideCursor, Cmd.moveTo 0 0] ++ Editor.draw_rows s [] := by
    rw [draw_rows_eq_render_welcome, draw_rows_eq_render_welcome,
      render_welcome_eq_flatMap, render_welcome_eq_flatMap]
    simp
  refine ⟨rfl, rfl, rfl, ?_⟩
  show (Editor.refresh Editor.default s []).1 = _
  simp [Editor.refresh, terminal.cursor.hide, terminal.cursor.move_to,
    terminal.cursor.try_into_u16, Editor.default, Location.toPosition,
    terminal.cursor.showCursor, terminal.execute, hdr]

/-- An event that is a key press of one of the eight navigation keys
(with any modifiers). -/
def isNavPress (ev : Event) : Bool :=
  match ev with
  | .Key { code := .Up, kind := .Press, .. } => true
  | .Key { code := .Down, kind := .Press, .. } => true
  | .Key { code := .Left, kind := .Press, .. } => true
  | .Key { code := .Right, kind := .Press, .. } => true
  | .Key { code := .Home, kind := .Press, .. } => true
  | .Key { code := .End, kind := .Press, .. } => true
  | .Key { code := .PageUp, kind := .Press, .. } => true
  | .Key { code := .PageDown, kind := .Press, .. } => true
  | _ => false

/-- An event that is the quit combination: a key press of `'q'` with the
Control modifier. -/
def isQuitPress (ev : Event) : Bool :=
  match ev with
  | .Key { code := .Char 'q', ctrl := true, kind := .Press } => true
  | _ => false

/-- C8: every event that is neither a navigation key press nor the quit
combination — non-key events, release/repeat-kind key events, other key
codes, and `'q'` without Control — leaves the whole editor state (both
the location and the quit flag) unchanged. -/
theorem C8_other_events_ignored (e : Editor) (s : Size) (ev : Event)
    (h1 : isNavPress ev = false) (h2 : isQuitPress ev = false) :
    Editor.handle_event e s ev = e := by
  cases ev <;> try rfl
  case Key ke =>
    obtain ⟨code, ctrl, kind⟩ := ke
    cases kind
    case Release => rfl
    case Repeat => rfl
    case Press =>
      cases code <;> first | rfl | (simp [isNavPress] at h1)
      case Char c =>
        by_cases hq : c = 'q'
        · subst hq
          cases ctrl
          · rfl
          · simp [isQuitPress] at h2
        · simp [Editor.handle_event, hq]

/-- Witness for C8: `'q'` pressed without the Control modifier is ignored
from a state with a nonzero location. -/
theorem C8_other_events_ignored_witness :
    isNavPress (.Key { code := .Char 'q', ctrl := false, kind := .Press }) =
        false ∧
      isQuitPress (.Key { code := .Char 'q', ctrl := false, kind := .Press }) =
        false ∧
      Editor.handle_event { should_quit := false, location := ⟨3, 4⟩ } ⟨10, 8⟩
          (.Key { code := .Char 'q', ctrl := false, kind := .Press }) =
        { should_quit := false, location := ⟨3, 4⟩ } :=
  ⟨by decide, by decide,
    C8_other_events_ignored { should_quit := false, location := ⟨3, 4⟩ } ⟨10, 8⟩
      (.Key { code := .Char 'q', ctrl := false, kind := .Press })
      (by decide) (by decide)⟩

theorem linesGo_no_newline :
    ∀ (s acc : List Char), '\n' ∉ acc →
      ∀ l ∈ linesGo s acc, '\n' ∉ l := by
  intro s
  induction s with
  | nil =>
    intro acc hacc l hl
    simp only [linesGo, List.mem_singleton] at hl
    subst hl
    simpa using hacc
  | cons c rest ih =>
    intro acc hacc l hl
    by_cases hc : c = '\n'
    · subst hc
      simp only [linesGo, if_pos rfl] at hl
      rcases List.mem_cons.mp hl with h | h
      · subst h
        intro habs
        have hsub : stripCR acc.reverse ⊆ acc.reverse := by
          unfold stripCR
          split
          · split
            · exact (List.dropLast_sublist _).subset
            · exact fun x hx => hx
          · exact fun x hx => hx
        exact hacc (List.mem_reverse.mp (hsub habs))
      · rcases hrest : rest.isEmpty with _ | _
        · rw [hrest] at h
          simp at h
          exact ih [] (by simp) l h
        · rw [hrest] at h
          simp at h
    · simp only [linesGo, if_neg hc] at hl
      refine ih (c :: acc) ?_ l hl
      intro habs
      rcases List.mem_cons.mp habs with h | h
      · exact hc h.symm
      · exact hacc h

/-- C9 (amended): every line produced by loading a file contains no `'\n'`
character; a `'\r'` is stripped only when it immediately precedes a
`'\n'`, so a carriage return elsewhere in the text is retained. -/
theorem C9_no_newline_in_lines (fs : String → Option (List Char))
    (filename : String) (b : Buffer) (hload : Buffer.load fs filename = .ok b) :
    ∀ l ∈ b.lines, '\n' ∉ l := by
  unfold Buffer.load at hload
  rcases hfs : fs filename with _ | contents <;> rw [hfs] at hload
  · cases hload
  · cases hload
    intro l hl
    unfold rustLines at hl
    rcases he : contents.isEmpty with _ | _ <;> rw [he] at hl
    · exact linesGo_no_newline contents [] (by simp) l hl
    · simp at hl

/-- Witness for C9 (amended) on a concrete two-line file. -/
theorem C9_no_newline_in_lines_witness :
    Buffer.load (fun _ => some (("ab\ncd").data)) "f" =
        .ok { lines := [("ab").data, ("cd").data] } ∧
      ("ab").data ∈ [("ab").data, ("cd").data] ∧
      '\n' ∉ ("ab").data :=
  ⟨rfl, by decide,
    C9_no_newline_in_lines (fun _ => some (("ab\ncd").data)) "f"
      { lines := [("ab").data, ("cd").data] } rfl
      (("ab").data) (by decide)⟩

/-- C9 counterexample: the file content `"a\rb"` loads to the single line
`"a\rb"`, which retains the carriage return, refuting the claim that no
`'\r'` appears anywhere in any loaded line (Rust's `lines()` strips a
`'\r'` only as part of a `"\r\n"` ending). -/
theorem C9_counterexample_lone_cr :
    Buffer.load (fun n => if n = "f" then some (("a\rb").data) else none) "f" =
        .ok { lines := [['a', '\r', 'b']] } ∧
      '\r' ∈ (['a', '\r', 'b'] : List Char) := by
  constructor
  · rfl
  · decide

/-- C10: `View::load` is atomic on error — if loading the file fails, the
view's buffer is exactly what it was before the call; the buffer is
replaced only by a successful load. -/
theorem C10_view_load_atomic (fs : String → Option (List Char)) (v : View)
    (name : String) :
    ((Buffer.load fs name).isOk = false → View.load fs v name = v) ∧
      (∀ b, Buffer.load fs name = .ok b →
        View.load fs v name = { v with buffer := b }) := by
  constructor
  · intro h
    unfold View.load
    unfold Buffer.load at h ⊢
    rcases hfs : fs name with _ | contents
    · rfl
    · rw [hfs] at h
      simp [Except.isOk, Except.toBool] at h
  · intro b hb
    unfold View.load
    rw [hb]

/-- Witness for C10: a failing load over a view that already holds a
non-empty buffer leaves it untouched. -/
theorem C10_view_load_atomic_witness :
    (Buffer.load (fun _ => none) "missing").isOk = false ∧
      View.load (fun _ => none) ⟨⟨[['x']]⟩⟩ "missing" = ⟨⟨[['x']]⟩⟩ :=
  ⟨rfl, (C10_view_load_atomic (fun _ => none) ⟨⟨[['x']]⟩⟩ "missing").1 rfl⟩

end Hecto
